import Mathlib

/-!
Verification of the world lifecycle daemon (crld), the name-validation helper
and the port allocation service (portd) of the b21 deployment cyber range.

The embedding models one (event, user) pair of the daemon:

* src/crl/crld/crld.py
    - the enumerations WorldState / WorldSignal / WorldHealth,
    - the FSM funnel user_fsm (as a fuel-indexed run function over a single
      world context, with the create/stop worker-queue interactions inlined
      synchronously: enqueueing and awaiting the completion event is modelled
      by running the worker's call_fsm_blocking on the spot, which is the
      observable behaviour of a single request),
    - set_fsm_state (every state write produces one log entry, returned as
      the list of (old state, new state, signal) triples),
    - check_fsm_integrity, checking_state, call_fsm_blocking,
    - get_health / determine_world_health,
    - get_user_config and the world_create handler with its
      validate_world_args decorator.
* src/crl/crl/helpers.py: validate_name, with the Python semantics of
  re.match over the pattern USER_ALLOWED_REGEX = "^[A-Za-z0-9]+$$" from
  src/crl/crl/config.py (an unanchored-at-the-right `$` matches at the end of
  the string or just before a trailing newline, so the pattern also accepts
  one trailing newline), and str.lower restricted to the ASCII range.
* src/crl/portd/portd.py: the handle coroutine, with the kernel's successive
  port-0 bind results supplied as a stream of integers.

External collaborators (the blocking shell-outs cmd_create / cmd_start /
cmd_stop / cmd_delete and the orchestrator adapter crl.world.inspect) are
modelled by an environment record: each blocking op has an outcome (truthy
return, falsy return, or raised exception) and a filesystem effect on the
peer config, and the adapter's returned service map is a list of
(hostname, up) pairs, exactly the shape consumed by determine_world_health.
-/

namespace CrlD

/-- States of a world, from WorldState in src/crl/crld/crld.py. -/
inductive WorldState
  | notfound | checking | creating | stopped | starting | running | stopping
  deriving DecidableEq, Repr

/-- Signals accepted by the FSM, from WorldSignal in src/crl/crld/crld.py. -/
inductive WorldSignal
  | create | start | stop | fail | check | up | down
  deriving DecidableEq, Repr

/-- Health of a world, from WorldHealth in src/crl/crld/crld.py. -/
inductive WorldHealth
  | up | degraded | down
  deriving DecidableEq, Repr

/-- Outcome of a blocking operation run in the executor: a truthy return
value, a falsy return value, or a raised exception. -/
inductive OpResult
  | ok | failRet | raises
  deriving DecidableEq, Repr

/-- A blocking world operation (cmd_create, cmd_start, cmd_stop, cmd_delete):
its outcome and its effect on the peer config file of the world. -/
structure Op where
  res : OpResult
  fsEff : Option String → Option String

/-- The external world as seen by the daemon for one (event, user) pair:
the four blocking commands and the service map returned by the orchestrator
adapter inspect call (hostname, up-flag). -/
structure Env where
  createOp : Op
  startOp : Op
  stopOp : Op
  deleteOp : Op
  services : List (String × Bool)

/-- The mutable context of one world: its FSM state (world_state entry, a
missing entry reads as notfound via get_fsm_state's setdefault) and the peer
config file (none = absent, some s = present with contents s). -/
structure WorldCtx where
  fsm : WorldState
  config : Option String
  deriving DecidableEq

/-- One log line of set_fsm_state: (old state, new state, signal). -/
abbrev LogEntry := WorldState × WorldState × WorldSignal

/-- The signal recorded in a log entry. -/
def sigOf (e : LogEntry) : WorldSignal := e.2.2

/-- The health computation determine_world_health inside get_health
(src/crl/crld/crld.py lines 243-259): drop the wireguard service, then
empty list of statuses gives down, all up gives up, some up gives degraded,
none up gives down, and otherwise the Python function falls through to
return None. -/
def determine_world_health (worldInfo : List (String × Bool)) : Option WorldHealth :=
  let services_status := (worldInfo.filter (fun p => p.1 != "wireguard")).map Prod.snd
  if services_status.isEmpty then some .down
  else if services_status.all id then some .up
  else if services_status.any id then some .degraded
  else if !(services_status.any id) then some .down
  else none

/-- get_health: run determine_world_health on the service map the adapter
returned for this world. -/
def get_health (env : Env) : Option WorldHealth :=
  determine_world_health env.services

mutual

/-- The FSM funnel user_fsm (src/crl/crld/crld.py lines 52-107), run to
completion for one incoming signal. Fuel is a modelling artifact bounding
the (statically bounded) cascade depth; with fuel 0 the run stops without
logging. Enqueue-and-await on the create/stop queues is inlined as the
worker body call_fsm_blocking(cmd_create, down, fail) resp.
call_fsm_blocking(cmd_stop, down, fail). Returns the final context and the
list of set_fsm_state log entries in emission order. -/
def user_fsm_run : Nat → Env → WorldCtx → WorldSignal → WorldCtx × List LogEntry
  | 0, _, ctx, _ => (ctx, [])
  | n + 1, env, ctx, sig =>
    match ctx.fsm, sig with
    | .notfound, .create =>
      let ctx1 : WorldCtx := { ctx with fsm := .creating }
      let r := call_fsm_blocking n env ctx1 env.createOp (some .down) (some .fail)
      (r.1, (WorldState.notfound, WorldState.creating, WorldSignal.create) :: r.2)
    | .notfound, .check =>
      let ctx1 : WorldCtx := { ctx with fsm := .checking }
      let r := checking_state n env ctx1
      (r.1, (WorldState.notfound, WorldState.checking, WorldSignal.check) :: r.2)
    | .creating, .down =>
      ({ ctx with fsm := .stopped }, [(WorldState.creating, WorldState.stopped, WorldSignal.down)])
    | .creating, .fail =>
      let r := call_fsm_blocking n env ctx env.deleteOp none none
      ({ r.1 with fsm := .notfound },
        r.2 ++ [(WorldState.creating, WorldState.notfound, WorldSignal.fail)])
    | .checking, .up =>
      ({ ctx with fsm := .running }, [(WorldState.checking, WorldState.running, WorldSignal.up)])
    | .checking, .down =>
      ({ ctx with fsm := .stopped }, [(WorldState.checking, WorldState.stopped, WorldSignal.down)])
    | .checking, .fail =>
      ({ ctx with fsm := .notfound }, [(WorldState.checking, WorldState.notfound, WorldSignal.fail)])
    | .stopped, .check =>
      let ctx1 : WorldCtx := { ctx with fsm := .checking }
      let r := checking_state n env ctx1
      (r.1, (WorldState.stopped, WorldState.checking, WorldSignal.check) :: r.2)
    | .stopped, .start =>
      let ctx1 : WorldCtx := { ctx with fsm := .starting }
      let r := call_fsm_blocking n env ctx1 env.startOp (some .up) (some .fail)
      (r.1, (WorldState.stopped, WorldState.starting, WorldSignal.start) :: r.2)
    | .starting, .up =>
      ({ ctx with fsm := .running }, [(WorldState.starting, WorldState.running, WorldSignal.up)])
    | .starting, .fail =>
      ({ ctx with fsm := .stopped }, [(WorldState.starting, WorldState.stopped, WorldSignal.fail)])
    | .running, .check =>
      let ctx1 : WorldCtx := { ctx with fsm := .checking }
      let r := checking_state n env ctx1
      (r.1, (WorldState.running, WorldState.checking, WorldSignal.check) :: r.2)
    | .running, .stop =>
      let ctx1 : WorldCtx := { ctx with fsm := .stopping }
      let r := call_fsm_blocking n env ctx1 env.stopOp (some .down) (some .fail)
      (r.1, (WorldState.running, WorldState.stopping, WorldSignal.stop) :: r.2)
    | .stopping, .down =>
      ({ ctx with fsm := .stopped }, [(WorldState.stopping, WorldState.stopped, WorldSignal.down)])
    | .stopping, .fail =>
      ({ ctx with fsm := .stopped }, [(WorldState.stopping, WorldState.stopped, WorldSignal.fail)])
    | s, _ =>
      ({ ctx with fsm := s }, [(s, s, sig)])

/-- checking_state (src/crl/crld/crld.py lines 134-142): read the health and
dispatch down when it equals WorldHealth.down, up when it is any other
(truthy) value, fail when get_health returned None. -/
def checking_state : Nat → Env → WorldCtx → WorldCtx × List LogEntry
  | 0, _, ctx => (ctx, [])
  | n + 1, env, ctx =>
    match get_health env with
    | some .down => user_fsm_run n env ctx .down
    | some _ => user_fsm_run n env ctx .up
    | none => user_fsm_run n env ctx .fail

/-- call_fsm_blocking (src/crl/crld/crld.py lines 145-168): run the blocking
op (its filesystem effect is applied to the peer config), then dispatch the
ok signal when the op returned truthy, the fail signal when it returned
falsy, and the fail signal when it raised; a missing signal means no
dispatch. The exception is swallowed: the function always returns normally. -/
def call_fsm_blocking :
    Nat → Env → WorldCtx → Op → Option WorldSignal → Option WorldSignal →
      WorldCtx × List LogEntry
  | 0, _, ctx, _, _, _ => (ctx, [])
  | n + 1, env, ctx, op, okSig, failSig =>
    let ctx1 : WorldCtx := { ctx with config := op.fsEff ctx.config }
    match op.res with
    | .ok =>
      match okSig with
      | some s => user_fsm_run n env ctx1 s
      | none => (ctx1, [])
    | .failRet =>
      match failSig with
      | some s => user_fsm_run n env ctx1 s
      | none => (ctx1, [])
    | .raises =>
      match failSig with
      | some s => user_fsm_run n env ctx1 s
      | none => (ctx1, [])

end

/-- check_fsm_integrity (src/crl/crld/crld.py lines 122-131): read the
current state and the existence of the peer config; inject one check signal
when the config exists and the state is notfound, or when the config is
missing and the state is not notfound; otherwise do nothing. -/
def check_fsm_integrity (fuel : Nat) (env : Env) (ctx : WorldCtx) :
    WorldCtx × List LogEntry :=
  if ctx.config.isSome ∧ ctx.fsm = .notfound then user_fsm_run fuel env ctx .check
  else if ctx.config.isNone ∧ ctx.fsm ≠ .notfound then user_fsm_run fuel env ctx .check
  else (ctx, [])

/-- An HTTP response: 200 with a text body, or a bare error status. -/
inductive HttpResponse
  | ok (body : String)
  | err (status : Nat)
  deriving DecidableEq, Repr

/-- get_user_config (src/crl/crld/crld.py lines 188-197): the contents of
the peer config file, or none when the file is absent. -/
def get_user_config (ctx : WorldCtx) : Option String := ctx.config

/-- The walrus-conditioned response at the end of world_create and
world_config: a truthy config string (non-empty) yields 200 with the config
as body, while None and the empty string are falsy and yield 404. -/
def config_response (cfg : Option String) : HttpResponse :=
  match cfg with
  | some c => if c = "" then .err 404 else .ok c
  | none => .err 404

/-- Fuel ample for every cascade the daemon can produce (the deepest chain,
create, is four calls deep). -/
def enoughFuel : Nat := 9

/-- The world_create handler body (src/crl/crld/crld.py lines 287-301),
after validate_world_args has accepted the names: run the integrity check;
if the state is notfound dispatch create; if the state is then stopped
dispatch start; answer with the peer config. Returns the response, the
final context, and the concatenated FSM log. -/
def world_create (env : Env) (ctx : WorldCtx) :
    HttpResponse × WorldCtx × List LogEntry :=
  let p1 := check_fsm_integrity enoughFuel env ctx
  let p2 := if p1.1.fsm = .notfound then user_fsm_run enoughFuel env p1.1 .create
            else (p1.1, [])
  let p3 := if p2.1.fsm = .stopped then user_fsm_run enoughFuel env p2.1 .start
            else (p2.1, [])
  (config_response (get_user_config p3.1), p3.1, p1.2 ++ p2.2 ++ p3.2)

-- ---------------------------------------------------------------------------
-- Name validation (src/crl/crl/helpers.py and src/crl/crl/config.py)
-- ---------------------------------------------------------------------------

/-- USER_MAX_LEN from src/crl/crl/config.py. -/
def USER_MAX_LEN : Nat := 32

/-- USER_MIN_LEN from src/crl/crl/config.py. -/
def USER_MIN_LEN : Nat := 4

/-- USER_CASE_SENSITIVE from src/crl/crl/config.py. -/
def USER_CASE_SENSITIVE : Bool := false

/-- An ASCII letter or digit: one character of the class [A-Za-z0-9]. -/
def isAlnumAscii (c : Char) : Bool :=
  ('A' ≤ c && c ≤ 'Z') || ('a' ≤ c && c ≤ 'z') || ('0' ≤ c && c ≤ '9')

/-- Remove a single trailing newline character, if present. -/
def dropTrailingNewline (cs : List Char) : List Char :=
  match cs.reverse with
  | '\n' :: rest => rest.reverse
  | _ => cs

/-- Python re.match of USER_ALLOWED_REGEX = "^[A-Za-z0-9]+$$"
(src/crl/crl/config.py line 2). Without re.MULTILINE, `$` matches at the end
of the string or just before a newline that ends the string, and both `$` of
the pattern match at that same position; re.match anchors at the start. So
the match succeeds exactly on a non-empty run of ASCII alphanumerics
optionally followed by one final newline. -/
def allowed_regex_match (s : String) : Bool :=
  let core := dropTrailingNewline s.data
  !core.isEmpty && core.all isAlnumAscii

/-- Python str.lower on one character, restricted to the ASCII range (the
only characters that can reach the lowering branch of validate_name). -/
def py_char_lower (c : Char) : Char :=
  if 'A' ≤ c && c ≤ 'Z' then Char.ofNat (c.toNat + 32) else c

/-- Python str.lower on a whole string, ASCII range. -/
def py_lower (s : String) : String := String.mk (s.data.map py_char_lower)

/-- validate_name (src/crl/crl/helpers.py lines 165-173): raise ValueError
(modelled as none) when the regex does not match or the length is out of
the [USER_MIN_LEN, USER_MAX_LEN] range; otherwise return the name, lowered
because USER_CASE_SENSITIVE is false. Python len counts characters. -/
def validate_name (name : String) : Option String :=
  if ¬ allowed_regex_match name ∨ name.data.length > USER_MAX_LEN ∨
      name.data.length < USER_MIN_LEN then
    none
  else
    some (if USER_CASE_SENSITIVE then name else py_lower name)

/-- The validate_world_args decorator (src/crl/crld/crld.py lines 265-279):
validate both path parameters, pass the validated (lowered) pair on, or
answer 415 without touching the FSM. -/
def validate_world_args (rawEvent rawUser : String) : Option (String × String) :=
  match validate_name rawEvent, validate_name rawUser with
  | some e, some u => some (e, u)
  | _, _ => none

/-- The full POST /(event)/create/(user) route: validation wrapper around
world_create. An invalid name answers 415 before any FSM signal fires. -/
def world_create_route (env : Env) (rawEvent rawUser : String) (ctx : WorldCtx) :
    HttpResponse × WorldCtx × List LogEntry :=
  match validate_world_args rawEvent rawUser with
  | some _ => world_create env ctx
  | none => (.err 415, ctx, [])

-- ---------------------------------------------------------------------------
-- Port allocation service (src/crl/portd/portd.py)
-- ---------------------------------------------------------------------------

/-- The while loop of portd's handle coroutine: repeatedly take the next
kernel-assigned port (ports i is the result of the i-th bind to port 0)
until one falls outside the blacklist. Fuel bounds the number of binds;
none models a run that did not terminate within the fuel. -/
def pas_loop : Nat → (Nat → Int) → List Int → Nat → Option Int
  | 0, _, _, _ => none
  | n + 1, ports, bl, i =>
    let p := ports i
    if p ∈ bl then pas_loop n ports bl (i + 1) else some p

/-- portd's handle (src/crl/portd/portd.py lines 9-19): parse the blacklist,
add the sentinel -1 (the initial value of port, which forces at least one
bind), and loop until a port outside the blacklist appears; that port is the
plain-text response body. -/
def pas_handle (fuel : Nat) (ports : Nat → Int) (blacklist : List Int) : Option Int :=
  pas_loop fuel ports ((-1) :: blacklist) 0

-- ---------------------------------------------------------------------------
-- The specification-side transition table and simple run-shape lemmas
-- ---------------------------------------------------------------------------

/-- The transition table of spec section 4.E, written from the spec's words:
a cell holds the new state, an empty cell (none) means no transition. -/
def specTransitionTable : WorldState → WorldSignal → Option WorldState
  | .notfound, .create => some .creating
  | .notfound, .check => some .checking
  | .checking, .up => some .running
  | .checking, .down => some .stopped
  | .checking, .fail => some .notfound
  | .creating, .down => some .stopped
  | .creating, .fail => some .notfound
  | .stopped, .start => some .starting
  | .stopped, .check => some .checking
  | .starting, .up => some .running
  | .starting, .fail => some .stopped
  | .running, .stop => some .stopping
  | .running, .check => some .checking
  | .stopping, .down => some .stopped
  | .stopping, .fail => some .stopped
  | _, _ => none

/-- The state written by set_fsm_state in the arm of user_fsm that matches
the given (state, signal) pair; the default arm rewrites the same state. -/
def fsm_step : WorldState → WorldSignal → WorldState
  | .notfound, .create => .creating
  | .notfound, .check => .checking
  | .creating, .down => .stopped
  | .creating, .fail => .notfound
  | .checking, .up => .running
  | .checking, .down => .stopped
  | .checking, .fail => .notfound
  | .stopped, .check => .checking
  | .stopped, .start => .starting
  | .starting, .up => .running
  | .starting, .fail => .stopped
  | .running, .check => .checking
  | .running, .stop => .stopping
  | .stopping, .down => .stopped
  | .stopping, .fail => .stopped
  | s, _ => s

/-- A blocking call with neither an ok nor a fail signal dispatches
nothing. -/
theorem blocking_none_log (n : Nat) (env : Env) (ctx : WorldCtx) (op : Op) :
    (call_fsm_blocking n env ctx op none none).2 = [] := by
  cases n with
  | zero => rfl
  | succ m => cases h : op.res <;> simp [call_fsm_blocking, h]

/-- The first log entry of a run records the incoming signal and the state
transition of the matched arm of user_fsm. -/
theorem user_fsm_run_head (n : Nat) (env : Env) (ctx : WorldCtx) (sig : WorldSignal) :
    (user_fsm_run (n + 1) env ctx sig).2.head? =
      some (ctx.fsm, fsm_step ctx.fsm sig, sig) := by
  obtain ⟨s, cfg⟩ := ctx
  cases s <;> cases sig <;> simp [user_fsm_run, fsm_step, blocking_none_log]

/-- A concrete environment: every blocking op succeeds, create writes the
peer config, delete removes it, and the inspected world has one non-VPN
service that is up. -/
def env0 : Env :=
  { createOp := { res := .ok, fsEff := fun _ => some "peer" }
  , startOp := { res := .ok, fsEff := fun c => c }
  , stopOp := { res := .ok, fsEff := fun c => c }
  , deleteOp := { res := .ok, fsEff := fun _ => none }
  , services := [("chall1", true)] }

/-- C1: dispatching any signal through the FSM funnel performs exactly the
transition of the spec 4.E table: the funnel's log entry for the incoming
signal goes from the current state to the table cell, and for a (state,
signal) pair with an empty cell the run rewrites the same state and the
context after dispatch equals the context before (a no-op). -/
theorem fsm_table_correspondence (n : Nat) (env : Env) (ctx : WorldCtx)
    (sig : WorldSignal) :
    (user_fsm_run (n + 1) env ctx sig).2.head? =
      some (ctx.fsm, (specTransitionTable ctx.fsm sig).getD ctx.fsm, sig) ∧
    (specTransitionTable ctx.fsm sig = none →
      user_fsm_run (n + 1) env ctx sig = (ctx, [(ctx.fsm, ctx.fsm, sig)])) := by
  constructor
  · rw [user_fsm_run_head]
    have h : fsm_step ctx.fsm sig = (specTransitionTable ctx.fsm sig).getD ctx.fsm := by
      cases ctx.fsm <;> cases sig <;> rfl
    rw [h]
  · intro h
    obtain ⟨s, cfg⟩ := ctx
    cases s <;> cases sig <;>
      first
        | rfl
        | exact absurd h (by simp [specTransitionTable])

/-- Witness for the no-op half of the table correspondence at the empty
cell (notfound, stop). -/
theorem fsm_table_correspondence_witness :
    user_fsm_run 1 env0 ⟨.notfound, none⟩ .stop =
      (⟨.notfound, none⟩, [(.notfound, .notfound, .stop)]) :=
  (fsm_table_correspondence 0 env0 ⟨.notfound, none⟩ .stop).2 rfl

/-- A blocking call with neither signal set only applies the op's
filesystem effect. -/
theorem blocking_none (n : Nat) (env : Env) (ctx : WorldCtx) (op : Op) :
    call_fsm_blocking (n + 1) env ctx op none none =
      ({ ctx with config := op.fsEff ctx.config }, []) := by
  cases h : op.res <;> simp [call_fsm_blocking, h]

/-- Dispatching up never cascades: one log entry, one state write. -/
theorem run_up_spec (n : Nat) (env : Env) (ctx : WorldCtx) :
    user_fsm_run (n + 1) env ctx .up =
      ({ ctx with fsm := fsm_step ctx.fsm .up },
       [(ctx.fsm, fsm_step ctx.fsm .up, .up)]) := by
  obtain ⟨s, cfg⟩ := ctx
  cases s <;> rfl

/-- Dispatching down never cascades: one log entry, one state write. -/
theorem run_down_spec (n : Nat) (env : Env) (ctx : WorldCtx) :
    user_fsm_run (n + 1) env ctx .down =
      ({ ctx with fsm := fsm_step ctx.fsm .down },
       [(ctx.fsm, fsm_step ctx.fsm .down, .down)]) := by
  obtain ⟨s, cfg⟩ := ctx
  cases s <;> rfl

/-- The signal checking_state forwards for a given health reading. -/
def health_sig (env : Env) : WorldSignal :=
  match get_health env with
  | some .down => .down
  | some _ => .up
  | none => .fail

/-- The reconciler never forwards a check signal. -/
theorem health_sig_ne_check (env : Env) : health_sig env ≠ .check := by
  unfold health_sig
  rcases h : get_health env with _ | hv
  · simp
  · cases hv <;> simp

/-- The full shape of a check dispatch: from notfound, stopped or running
the funnel enters checking and immediately applies the reconciler's verdict;
from any other state the check is a logged no-op. -/
theorem run_check_spec (n : Nat) (env : Env) (ctx : WorldCtx) :
    user_fsm_run (n + 3) env ctx .check =
      if ctx.fsm = .notfound ∨ ctx.fsm = .stopped ∨ ctx.fsm = .running then
        ({ ctx with fsm := fsm_step .checking (health_sig env) },
         [(ctx.fsm, .checking, .check),
          (.checking, fsm_step .checking (health_sig env), health_sig env)])
      else (ctx, [(ctx.fsm, ctx.fsm, .check)]) := by
  obtain ⟨s, cfg⟩ := ctx
  rcases hh : get_health env with _ | hv
  · cases s <;> simp [user_fsm_run, checking_state, health_sig, fsm_step, hh]
  · cases hv <;> cases s <;>
      simp [user_fsm_run, checking_state, health_sig, fsm_step, hh]

/-- The full shape of a create dispatch from notfound: enter creating, run
cmd_create through the executor, and land in stopped on a truthy return or
back in notfound (after the cleanup delete) on a falsy return or an
exception. -/
theorem run_create_spec (n : Nat) (env : Env) (ctx : WorldCtx)
    (h : ctx.fsm = .notfound) :
    user_fsm_run (n + 4) env ctx .create =
      match env.createOp.res with
      | .ok =>
          ({ fsm := .stopped, config := env.createOp.fsEff ctx.config },
           [(.notfound, .creating, .create), (.creating, .stopped, .down)])
      | _ =>
          ({ fsm := .notfound,
             config := env.deleteOp.fsEff (env.createOp.fsEff ctx.config) },
           [(.notfound, .creating, .create), (.creating, .notfound, .fail)]) := by
  obtain ⟨s, cfg⟩ := ctx
  subst h
  cases hr : env.createOp.res <;> cases hd : env.deleteOp.res <;>
    simp [user_fsm_run, call_fsm_blocking, hr, hd]

/-- The full shape of a start dispatch from stopped: enter starting, run
cmd_start through the executor, and land in running on a truthy return or
back in stopped otherwise. -/
theorem run_start_spec (n : Nat) (env : Env) (ctx : WorldCtx)
    (h : ctx.fsm = .stopped) :
    user_fsm_run (n + 3) env ctx .start =
      match env.startOp.res with
      | .ok =>
          ({ fsm := .running, config := env.startOp.fsEff ctx.config },
           [(.stopped, .starting, .start), (.starting, .running, .up)])
      | _ =>
          ({ fsm := .stopped, config := env.startOp.fsEff ctx.config },
           [(.stopped, .starting, .start), (.starting, .stopped, .fail)]) := by
  obtain ⟨s, cfg⟩ := ctx
  subst h
  cases hr : env.startOp.res <;>
    simp [user_fsm_run, call_fsm_blocking, hr]

/-- The health function returns a value on every input. -/
theorem determine_some (info : List (String × Bool)) :
    determine_world_health info ≠ none := by
  intro h
  unfold determine_world_health at h
  set sts := (info.filter (fun p => p.1 != "wireguard")).map Prod.snd with hsts
  by_cases h1 : sts.isEmpty <;> by_cases h2 : sts.all id <;>
    by_cases h3 : sts.any id <;> simp [h1, h2, h3] at h

/-- A check dispatch logs the check signal exactly once. -/
theorem run_check_count (n : Nat) (env : Env) (ctx : WorldCtx) :
    ((user_fsm_run (n + 3) env ctx .check).2.map sigOf).count WorldSignal.check = 1 := by
  rw [run_check_spec]
  have hns := health_sig_ne_check env
  split
  · simp [sigOf, List.count_cons, hns]
  · simp [sigOf]

/-- C6: the blocking-op executor dispatches the ok signal after a truthy
return, the fail signal after a falsy return, and the fail signal after a
raised exception (the exception is swallowed, never re-raised); an unset
signal means nothing is dispatched. The first dispatched signal of the
resulting log is exactly that signal. -/
theorem blocking_executor_signals (n : Nat) (env : Env) (ctx : WorldCtx)
    (op : Op) (okSig failSig : Option WorldSignal) :
    ((call_fsm_blocking (n + 2) env ctx op okSig failSig).2.head?).map sigOf =
      (match op.res with
       | .ok => okSig
       | .failRet => failSig
       | .raises => failSig) := by
  cases hr : op.res <;> cases okSig <;> cases failSig <;>
    simp [call_fsm_blocking, hr, user_fsm_run_head, sigOf]

/-- C9: the health determination always returns one of the three WorldHealth
values, so the checking-state reconciler only ever dispatches up or down
(its fail branch is dead code whenever the inspect call returns a value),
and from checking the reconciler can only reach running or stopped, never
notfound. -/
theorem health_never_none (info : List (String × Bool)) (env : Env)
    (ctx : WorldCtx) (n : Nat) :
    determine_world_health info ≠ none ∧
    ((checking_state (n + 2) env ctx).2.map sigOf = [.down] ∨
     (checking_state (n + 2) env ctx).2.map sigOf = [.up]) ∧
    (ctx.fsm = .checking → (checking_state (n + 2) env ctx).1.fsm ≠ .notfound) := by
  refine ⟨determine_some info, ?_, ?_⟩
  · rcases hh : get_health env with _ | hv
    · exact absurd hh (by simpa [get_health] using determine_some env.services)
    · cases hv <;>
        simp [checking_state, hh, run_up_spec, run_down_spec, sigOf]
  · intro hck
    rcases hh : get_health env with _ | hv
    · exact absurd hh (by simpa [get_health] using determine_some env.services)
    · cases hv <;>
        simp [checking_state, hh, run_up_spec, run_down_spec, fsm_step, hck]

/-- Witness for the reconciler reachability claim: from checking with an
up service the reconciler lands in running, not notfound. -/
theorem health_never_none_witness :
    (checking_state 9 env0 ⟨.checking, none⟩).1.fsm ≠ .notfound :=
  (health_never_none [] env0 ⟨.checking, none⟩ 7).2.2 rfl

/-- The environment of a world whose adapter call came back empty: per spec
section 4.A a failed adapter call returns an empty record, so the inspected
service map is empty. -/
def envEmpty : Env := { env0 with services := [] }

/-- Counterexample to C4 as stated: when the adapter call fails (it returns
the empty record, spec 4.A's failure mode), the reconciler dispatches down
and moves the world from checking to stopped; the claimed fail signal (which
would move it to notfound) is never dispatched. -/
theorem reconciler_empty_adapter_cex :
    (checking_state 9 envEmpty ⟨.checking, some "peer"⟩).2.map sigOf = [.down] ∧
    (checking_state 9 envEmpty ⟨.checking, some "peer"⟩).1.fsm = .stopped ∧
    determine_world_health envEmpty.services = some .down := by
  exact ⟨rfl, rfl, rfl⟩

/-- C4 amended: the reconciler computes health as: empty service list gives
down, all up gives up, at least one up gives degraded, none up gives down;
it dispatches up when health is up or degraded and down when health is down.
The fail branch would require the health computation to return no value,
which never happens when the inspect call returns; in particular an adapter
failure (empty record) is dispatched as down. -/
theorem reconciler_health_mapping (env : Env) (ctx : WorldCtx) (n : Nat) :
    determine_world_health env.services =
      some (let sts := (env.services.filter (fun p => p.1 != "wireguard")).map Prod.snd
            if sts.isEmpty then WorldHealth.down
            else if sts.all id then .up
            else if sts.any id then .degraded
            else .down) ∧
    (checking_state (n + 2) env ctx).2.map sigOf =
      [if determine_world_health env.services = some WorldHealth.down then
        WorldSignal.down else .up] := by
  constructor
  · unfold determine_world_health
    set sts := (env.services.filter (fun p => p.1 != "wireguard")).map Prod.snd with hsts
    by_cases h1 : sts.isEmpty <;> by_cases h2 : sts.all id <;>
      by_cases h3 : sts.any id <;> simp [h1, h2, h3]
  · rcases hh : determine_world_health env.services with _ | hv
    · exact absurd hh (determine_some env.services)
    · cases hv <;>
        simp [checking_state, get_health, hh, run_up_spec, run_down_spec, sigOf]

/-- C5: the integrity check dispatches exactly one check signal precisely
when the peer config exists while the state is notfound, or the config is
missing while the state is not notfound; in every other case it leaves the
context untouched and dispatches nothing. -/
theorem integrity_check_spec (env : Env) (ctx : WorldCtx) :
    (((check_fsm_integrity enoughFuel env ctx).2.map sigOf).count WorldSignal.check = 1 ↔
      ((ctx.config.isSome ∧ ctx.fsm = .notfound) ∨
       (ctx.config.isNone ∧ ctx.fsm ≠ .notfound))) ∧
    (¬ ((ctx.config.isSome ∧ ctx.fsm = .notfound) ∨
        (ctx.config.isNone ∧ ctx.fsm ≠ .notfound)) →
      check_fsm_integrity enoughFuel env ctx = (ctx, [])) := by
  have hnone : ¬ ((ctx.config.isSome ∧ ctx.fsm = .notfound) ∨
      (ctx.config.isNone ∧ ctx.fsm ≠ .notfound)) →
      check_fsm_integrity enoughFuel env ctx = (ctx, []) := by
    intro hc
    unfold check_fsm_integrity
    rw [if_neg (fun h => hc (Or.inl h)), if_neg (fun h => hc (Or.inr h))]
  refine ⟨⟨?_, ?_⟩, hnone⟩
  · intro hcount
    by_contra hc
    rw [hnone hc] at hcount
    simp at hcount
  · intro hcond
    have hrun : check_fsm_integrity enoughFuel env ctx =
        user_fsm_run enoughFuel env ctx .check := by
      unfold check_fsm_integrity
      rcases hcond with h | h
      · rw [if_pos h]
      · rw [if_neg, if_pos h]
        rintro ⟨h1, h2⟩
        rw [h2] at h
        simp at h
    rw [hrun]
    exact run_check_count 6 env ctx

/-- Witness for the integrity check: a running world with its config in
place triggers nothing, and a notfound world with a config on disk triggers
exactly one check. -/
theorem integrity_check_spec_witness :
    check_fsm_integrity enoughFuel env0 ⟨.running, some "peer"⟩ =
      (⟨.running, some "peer"⟩, []) ∧
    ((check_fsm_integrity enoughFuel env0 ⟨.notfound, some "peer"⟩).2.map
      sigOf).count WorldSignal.check = 1 :=
  ⟨(integrity_check_spec env0 ⟨.running, some "peer"⟩).2 (by decide),
   (integrity_check_spec env0 ⟨.notfound, some "peer"⟩).1.mpr (by decide)⟩

/-- The shape lemma for check at the daemon's working fuel. -/
theorem run_check_spec9 (env : Env) (ctx : WorldCtx) :
    user_fsm_run enoughFuel env ctx .check =
      if ctx.fsm = .notfound ∨ ctx.fsm = .stopped ∨ ctx.fsm = .running then
        ({ ctx with fsm := fsm_step .checking (health_sig env) },
         [(ctx.fsm, .checking, .check),
          (.checking, fsm_step .checking (health_sig env), health_sig env)])
      else (ctx, [(ctx.fsm, ctx.fsm, .check)]) :=
  run_check_spec 6 env ctx

/-- The shape lemma for create at the daemon's working fuel. -/
theorem run_create_spec9 (env : Env) (ctx : WorldCtx) (h : ctx.fsm = .notfound) :
    user_fsm_run enoughFuel env ctx .create =
      match env.createOp.res with
      | .ok =>
          ({ fsm := .stopped, config := env.createOp.fsEff ctx.config },
           [(.notfound, .creating, .create), (.creating, .stopped, .down)])
      | _ =>
          ({ fsm := .notfound,
             config := env.deleteOp.fsEff (env.createOp.fsEff ctx.config) },
           [(.notfound, .creating, .create), (.creating, .notfound, .fail)]) :=
  run_create_spec 5 env ctx h

/-- The shape lemma for start at the daemon's working fuel. -/
theorem run_start_spec9 (env : Env) (ctx : WorldCtx) (h : ctx.fsm = .stopped) :
    user_fsm_run enoughFuel env ctx .start =
      match env.startOp.res with
      | .ok =>
          ({ fsm := .running, config := env.startOp.fsEff ctx.config },
           [(.stopped, .starting, .start), (.starting, .running, .up)])
      | _ =>
          ({ fsm := .stopped, config := env.startOp.fsEff ctx.config },
           [(.stopped, .starting, .start), (.starting, .stopped, .fail)]) :=
  run_start_spec 6 env ctx h

/-- The reconciler's verdict is one of up, down, fail. -/
theorem health_sig_cases (env : Env) :
    health_sig env = .up ∨ health_sig env = .down ∨ health_sig env = .fail := by
  unfold health_sig
  rcases h : get_health env with _ | hv
  · simp
  · cases hv <;> simp

/-- The integrity check never dispatches create or start. -/
theorem integrity_no_create_start (env : Env) (ctx : WorldCtx) :
    WorldSignal.create ∉ (check_fsm_integrity enoughFuel env ctx).2.map sigOf ∧
    WorldSignal.start ∉ (check_fsm_integrity enoughFuel env ctx).2.map sigOf := by
  have hrun : ∀ c : WorldCtx,
      WorldSignal.create ∉ (user_fsm_run enoughFuel env c .check).2.map sigOf ∧
      WorldSignal.start ∉ (user_fsm_run enoughFuel env c .check).2.map sigOf := by
    intro c
    rw [run_check_spec9 env c]
    rcases health_sig_cases env with hs | hs | hs <;> split <;> simp [sigOf, hs]
  unfold check_fsm_integrity
  split
  · exact hrun ctx
  · split
    · exact hrun ctx
    · simp

/-- A create dispatch from notfound logs create and never logs start. -/
theorem run_create_sigs (env : Env) (ctx : WorldCtx) (h : ctx.fsm = .notfound) :
    WorldSignal.create ∈ (user_fsm_run enoughFuel env ctx .create).2.map sigOf ∧
    WorldSignal.start ∉ (user_fsm_run enoughFuel env ctx .create).2.map sigOf := by
  rw [run_create_spec9 env ctx h]
  cases hr : env.createOp.res <;> simp [sigOf, hr]

/-- A start dispatch from stopped logs start and never logs create. -/
theorem run_start_sigs (env : Env) (ctx : WorldCtx) (h : ctx.fsm = .stopped) :
    WorldSignal.start ∈ (user_fsm_run enoughFuel env ctx .start).2.map sigOf ∧
    WorldSignal.create ∉ (user_fsm_run enoughFuel env ctx .start).2.map sigOf := by
  rw [run_start_spec9 env ctx h]
  cases hr : env.startOp.res <;> simp [sigOf, hr]

/-- The context after the integrity-check phase of world_create. -/
def wc_phase1 (env : Env) (ctx : WorldCtx) : WorldCtx :=
  (check_fsm_integrity enoughFuel env ctx).1

/-- The create phase of world_create: dispatch create when the state after
the integrity check is notfound. -/
def wc_pair2 (env : Env) (ctx : WorldCtx) : WorldCtx × List LogEntry :=
  if (wc_phase1 env ctx).fsm = .notfound then
    user_fsm_run enoughFuel env (wc_phase1 env ctx) .create
  else (wc_phase1 env ctx, [])

/-- The context after the create phase of world_create. -/
def wc_phase2 (env : Env) (ctx : WorldCtx) : WorldCtx := (wc_pair2 env ctx).1

/-- The start phase of world_create: dispatch start when the state after the
create phase is stopped. -/
def wc_pair3 (env : Env) (ctx : WorldCtx) : WorldCtx × List LogEntry :=
  if (wc_phase2 env ctx).fsm = .stopped then
    user_fsm_run enoughFuel env (wc_phase2 env ctx) .start
  else (wc_phase2 env ctx, [])

/-- The final context of world_create. -/
def wc_phase3 (env : Env) (ctx : WorldCtx) : WorldCtx := (wc_pair3 env ctx).1

/-- world_create is the integrity, create, start pipeline followed by the
truthiness-tested config response. -/
theorem world_create_decomp (env : Env) (ctx : WorldCtx) :
    world_create env ctx =
      (config_response (wc_phase3 env ctx).config, wc_phase3 env ctx,
        (check_fsm_integrity enoughFuel env ctx).2 ++
          (wc_pair2 env ctx).2 ++ (wc_pair3 env ctx).2) := rfl

/-- C2: the world_create handler runs the integrity check first, dispatches
create exactly when the state is then notfound, dispatches start exactly
when the state is then stopped, and finally answers 200 with the peer
config contents when the file exists non-empty and 404 when it is absent. -/
theorem world_create_spec (env : Env) (ctx : WorldCtx) :
    (∀ c, (world_create env ctx).2.1.config = some c → c ≠ "" →
      (world_create env ctx).1 = .ok c) ∧
    ((world_create env ctx).2.1.config = none →
      (world_create env ctx).1 = .err 404) ∧
    (WorldSignal.create ∈ (world_create env ctx).2.2.map sigOf ↔
      (check_fsm_integrity enoughFuel env ctx).1.fsm = .notfound) ∧
    (WorldSignal.start ∈ (world_create env ctx).2.2.map sigOf ↔
      (wc_phase2 env ctx).fsm = .stopped) := by
  have hresp : (world_create env ctx).1 =
      config_response ((world_create env ctx).2.1.config) := rfl
  have hph : (wc_phase1 env ctx).fsm = (check_fsm_integrity enoughFuel env ctx).1.fsm := rfl
  refine ⟨?_, ?_, ?_, ?_⟩
  · intro c hc hne
    rw [hresp, hc]
    simp [config_response, hne]
  · intro hc
    rw [hresp, hc]
    rfl
  · rw [world_create_decomp]
    simp only [List.map_append, List.mem_append]
    constructor
    · rintro ((h | h) | h)
      · exact absurd h (integrity_no_create_start env ctx).1
      · by_contra hnf
        rw [wc_pair2, hph, if_neg hnf] at h
        simp at h
      · by_cases hst : (wc_phase2 env ctx).fsm = .stopped
        · rw [wc_pair3, if_pos hst] at h
          exact absurd h (run_start_sigs env _ hst).2
        · rw [wc_pair3, if_neg hst] at h
          simp at h
    · intro hnf
      refine Or.inl (Or.inr ?_)
      rw [wc_pair2, hph, if_pos hnf]
      exact (run_create_sigs env _ hnf).1
  · rw [world_create_decomp]
    simp only [List.map_append, List.mem_append]
    constructor
    · rintro ((h | h) | h)
      · exact absurd h (integrity_no_create_start env ctx).2
      · by_cases hnf : (wc_phase1 env ctx).fsm = .notfound
        · rw [wc_pair2, if_pos hnf] at h
          exact absurd h (run_create_sigs env _ hnf).2
        · rw [wc_pair2, if_neg hnf] at h
          simp at h
      · by_contra hst
        rw [wc_pair3, if_neg hst] at h
        simp at h
    · intro hst
      refine Or.inr ?_
      rw [wc_pair3, if_pos hst]
      exact (run_start_sigs env _ hst).1

/-- Witness for the create handler: a fresh world (notfound, no config) in
a well-behaved environment gets its peer config back with 200. -/
theorem world_create_spec_witness :
    (world_create env0 ⟨.notfound, none⟩).1 = .ok "peer" :=
  (world_create_spec env0 ⟨.notfound, none⟩).1 "peer" rfl (by decide)

/-- Counterexample to C7 as stated: a running world whose peer config file
exists but is empty keeps its state, dispatches nothing, yet answers 404
instead of returning the (empty) config contents with 200, because the
empty string is falsy in the handler's truthiness test. -/
theorem create_on_running_empty_config_cex :
    (world_create env0 ⟨.running, some ""⟩).1 = .err 404 ∧
    (world_create env0 ⟨.running, some ""⟩).2.1 = ⟨.running, some ""⟩ ∧
    (world_create env0 ⟨.running, some ""⟩).2.2 = [] :=
  ⟨rfl, rfl, rfl⟩

/-- C7 amended: replaying create on a world already running whose peer
config file exists with non-empty contents dispatches no signal at all,
leaves the state running, and answers 200 with the same config contents. -/
theorem create_on_running_idempotent (env : Env) (c : String) (h : c ≠ "") :
    world_create env ⟨.running, some c⟩ = (.ok c, ⟨.running, some c⟩, []) := by
  simp [world_create, check_fsm_integrity, config_response, get_user_config, h]

/-- Witness for create-on-running idempotence at a concrete config. -/
theorem create_on_running_idempotent_witness :
    world_create env0 ⟨.running, some "peer"⟩ =
      (.ok "peer", ⟨.running, some "peer"⟩, []) :=
  create_on_running_idempotent env0 "peer" (by decide)

-- ---------------------------------------------------------------------------
-- Name validation lemmas
-- ---------------------------------------------------------------------------

/-- Stripping the trailing newline of a newline-terminated list returns the
part before it. -/
theorem dtn_append_newline (cs : List Char) :
    dropTrailingNewline (cs ++ ['\n']) = cs := by
  unfold dropTrailingNewline
  rw [List.reverse_append]
  simp

/-- A list without a newline is unchanged by the stripping. -/
theorem dtn_no_newline (cs : List Char) (h : '\n' ∉ cs) :
    dropTrailingNewline cs = cs := by
  unfold dropTrailingNewline
  split
  · rename_i rest hrev
    exact absurd (by rw [← List.mem_reverse, hrev]; simp : '\n' ∈ cs) h
  · rfl

/-- Stripping the trailing newline keeps every non-newline character. -/
theorem dtn_mem (cs : List Char) (c : Char) (hc : c ∈ cs) (hne : c ≠ '\n') :
    c ∈ dropTrailingNewline cs := by
  unfold dropTrailingNewline
  split
  · rename_i rest hrev
    have hcs : cs = rest.reverse ++ ['\n'] := by
      have := congrArg List.reverse hrev
      simpa using this
    rw [hcs] at hc
    rcases List.mem_append.mp hc with h | h
    · exact h
    · simp at h
      exact absurd h hne
  · exact hc

/-- C10: any string of one to thirty-one ASCII alphanumeric characters
followed by a single trailing newline, of total length at least four, is
accepted by validate_name (no ValueError) and returned lower-cased, because
the `$$` anchors of the compiled pattern match just before a final newline. -/
theorem validate_name_trailing_newline (cs : List Char)
    (h1 : cs.all isAlnumAscii) (h2 : 1 ≤ cs.length) (h3 : cs.length ≤ 31)
    (h4 : 4 ≤ cs.length + 1) :
    validate_name (String.mk (cs ++ ['\n'])) =
      some (py_lower (String.mk (cs ++ ['\n']))) ∧
    ¬ (String.mk (cs ++ ['\n'])).data.all isAlnumAscii := by
  have hlen : (String.mk (cs ++ ['\n'])).data.length = cs.length + 1 := by simp
  have hmatch : allowed_regex_match (String.mk (cs ++ ['\n'])) = true := by
    unfold allowed_regex_match
    have hdata : (String.mk (cs ++ ['\n'])).data = cs ++ ['\n'] := rfl
    rw [hdata, dtn_append_newline]
    have hne : ¬ cs.isEmpty := by
      cases cs with
      | nil => simp at h2
      | cons a l => simp
    simp [hne, h1]
  constructor
  · unfold validate_name
    rw [if_neg]
    · simp [USER_CASE_SENSITIVE]
    · rw [hmatch, hlen]
      unfold USER_MAX_LEN USER_MIN_LEN
      simp
      omega
  · simp [isAlnumAscii]

/-- Witness for the trailing-newline acceptance at the four-letter core
a, b, c, d. -/
theorem validate_name_trailing_newline_witness :
    validate_name (String.mk (['a', 'b', 'c', 'd'] ++ ['\n'])) =
      some (py_lower (String.mk (['a', 'b', 'c', 'd'] ++ ['\n']))) ∧
    ¬ (String.mk (['a', 'b', 'c', 'd'] ++ ['\n'])).data.all isAlnumAscii :=
  validate_name_trailing_newline ['a', 'b', 'c', 'd'] (by decide) (by decide)
    (by decide) (by decide)

/-- Counterexample to C3 as stated: the name "abcd" followed by a newline
contains a character outside [A-Za-z0-9] yet is accepted by validate_name
(and returned unchanged: it is already lower case), instead of being
rejected with 415. -/
theorem validate_name_newline_accepted_cex :
    validate_name "abcd\n" = some "abcd\n" ∧
    ("abcd\n".data.all isAlnumAscii) = false := by decide

/-- C3 amended: a path parameter is accepted exactly when it is 4 to 32
characters long and matches the compiled pattern, which demands ASCII
alphanumerics but also tolerates one trailing newline; any accepted name is
case-folded to lowercase before use; a 3-character name, a 33-character
name and a name containing a dash are always rejected, and a rejected name
makes the route answer 415 with no FSM signal fired. -/
theorem validate_name_rules (name : String) :
    (∀ r, validate_name name = some r → r = py_lower name) ∧
    (name.data.length = 3 → validate_name name = none) ∧
    (name.data.length = 33 → validate_name name = none) ∧
    ('-' ∈ name.data → validate_name name = none) ∧
    (name.data.all isAlnumAscii → 4 ≤ name.data.length →
      name.data.length ≤ 32 → validate_name name = some (py_lower name)) ∧
    (validate_name name ≠ none ↔
      (allowed_regex_match name ∧ 4 ≤ name.data.length ∧ name.data.length ≤ 32)) ∧
    (∀ (env : Env) (ctx : WorldCtx) (other : String), validate_name name = none →
      world_create_route env name other ctx = (.err 415, ctx, []) ∧
      world_create_route env other name ctx = (.err 415, ctx, [])) := by
  refine ⟨?_, ?_, ?_, ?_, ?_, ?_, ?_⟩
  · intro r hr
    unfold validate_name at hr
    split at hr
    · exact absurd hr (by simp)
    · simp [USER_CASE_SENSITIVE] at hr
      exact hr.symm
  · intro hl
    unfold validate_name
    rw [if_pos]
    rw [hl]
    unfold USER_MIN_LEN
    right; right
    omega
  · intro hl
    unfold validate_name
    rw [if_pos]
    rw [hl]
    unfold USER_MAX_LEN
    right; left
    omega
  · intro hdash
    unfold validate_name
    rw [if_pos]
    left
    unfold allowed_regex_match
    intro hm
    simp only [Bool.and_eq_true] at hm
    have hmem : '-' ∈ dropTrailingNewline name.data :=
      dtn_mem name.data '-' hdash (by decide)
    have := List.all_eq_true.mp hm.2 '-' hmem
    simp [isAlnumAscii] at this
  · intro hall hge hle
    have hnl : '\n' ∉ name.data := by
      intro hmem
      have := List.all_eq_true.mp hall '\n' hmem
      simp [isAlnumAscii] at this
    have hmatch : allowed_regex_match name = true := by
      unfold allowed_regex_match
      rw [dtn_no_newline name.data hnl]
      have hne : ¬ name.data.isEmpty := by
        cases h : name.data with
        | nil => rw [h] at hge; simp at hge
        | cons a l => simp
      simp [hne, hall]
    unfold validate_name
    rw [if_neg]
    · simp [USER_CASE_SENSITIVE]
    · rw [hmatch]
      unfold USER_MAX_LEN USER_MIN_LEN
      rintro (h | h | h)
      · exact h rfl
      · omega
      · omega
  · unfold validate_name
    split
    · rename_i hcond
      unfold USER_MAX_LEN USER_MIN_LEN at hcond
      simp only [ne_eq, not_true_eq_false, false_iff]
      rintro ⟨hm, hge, hle⟩
      rcases hcond with h | h | h
      · exact h hm
      · omega
      · omega
    · rename_i hcond
      unfold USER_MAX_LEN USER_MIN_LEN at hcond
      push_neg at hcond
      simp only [ne_eq, reduceCtorEq, not_false_eq_true, true_iff]
      exact ⟨hcond.1, by omega, by omega⟩
  · intro env ctx other hnone
    constructor
    · unfold world_create_route validate_world_args
      rw [hnone]
    · unfold world_create_route validate_world_args
      rw [hnone]
      cases validate_name other <;> rfl

/-- Witness for the validation rules: an uppercase name is folded, a
3-character name is rejected, and a dashed event name makes the create
route answer 415 without touching the FSM. -/
theorem validate_name_rules_witness :
    validate_name "AbCd" = some (py_lower "AbCd") ∧
    validate_name "abc" = none ∧
    world_create_route env0 "ab-d" "user1" ⟨.notfound, none⟩ =
      (.err 415, ⟨.notfound, none⟩, []) :=
  ⟨(validate_name_rules "AbCd").2.2.2.2.1 (by decide) (by decide) (by decide),
   (validate_name_rules "abc").2.1 (by decide),
   ((validate_name_rules "ab-d").2.2.2.2.2.2 env0 ⟨.notfound, none⟩ "user1"
      ((validate_name_rules "ab-d").2.2.2.1 (by decide))).1⟩

-- ---------------------------------------------------------------------------
-- Port allocation service
-- ---------------------------------------------------------------------------

/-- The allocation loop returns the first kernel port outside the blacklist,
given enough fuel to reach one. -/
theorem pas_loop_finds (n : Nat) (ports : Nat → Int) (bl : List Int) :
    ∀ i, ports (i + n) ∉ bl →
      ∃ j, pas_loop (n + 1) ports bl i = some (ports j) ∧ ports j ∉ bl := by
  induction n with
  | zero =>
    intro i h
    rw [Nat.add_zero] at h
    exact ⟨i, by simp [pas_loop, h], h⟩
  | succ m ih =>
    intro i h
    by_cases hp : ports i ∈ bl
    · rcases ih (i + 1) (by rw [show i + 1 + m = i + (m + 1) by omega]; exact h) with
        ⟨j, hj1, hj2⟩
      exact ⟨j, by simpa [pas_loop, hp] using hj1, hj2⟩
    · exact ⟨i, by simp [pas_loop, hp], hp⟩

/-- C8: when the kernel's i-th port-0 bind yields a port outside the
supplied blacklist (and kernel ports are positive), the portd handler
terminates within i+1 binds and returns a positive port that is not in the
blacklist. -/
theorem pas_returns_unblacklisted (ports : Nat → Int) (blacklist : List Int)
    (i : Nat) (hpos : ∀ j, 0 < ports j) (hi : ports i ∉ blacklist) :
    ∃ r, pas_handle (i + 1) ports blacklist = some r ∧ 0 < r ∧
      r ∉ blacklist := by
  have hsent : ports (0 + i) ∉ ((-1 : Int) :: blacklist) := by
    rw [Nat.zero_add]
    simp only [List.mem_cons, not_or]
    exact ⟨by have := hpos i; omega, hi⟩
  rcases pas_loop_finds i ports ((-1 : Int) :: blacklist) 0 hsent with ⟨j, hj1, hj2⟩
  refine ⟨ports j, ?_, hpos j, ?_⟩
  · unfold pas_handle
    exact hj1
  · intro hmem
    exact hj2 (List.mem_cons_of_mem _ hmem)

/-- Witness for the port allocator: a kernel that always hands out port 4
against the blacklist 1, 2, 3. -/
theorem pas_returns_unblacklisted_witness :
    ∃ r, pas_handle 1 (fun _ => (4 : Int)) [1, 2, 3] = some r ∧ 0 < r ∧
      r ∉ ([1, 2, 3] : List Int) := by
  have h4 : ∀ j : Nat, 0 < (fun _ : Nat => (4 : Int)) j := by
    intro j
    show (0 : Int) < 4
    decide
  exact pas_returns_unblacklisted (fun _ => 4) [1, 2, 3] 0 h4 (by decide)

end CrlD
